import Mathlib

/-!
Verification of the Connection Readiness & Repair Engine of the
Cursor SageMaker Notebook Connector extension.

The TypeScript sources are embedded shallowly: every I/O collaborator
(process probes, socket probes, file system, command registry) becomes an
explicit input of a pure Lean function, and each service method becomes a
Lean function over those inputs, translated branch by branch from the
source.  JavaScript string operations (`includes`, `split`, `trim`,
`replace` with the concrete regexes appearing in the code) are modelled by
executable character-list functions whose semantics follow the ECMAScript
behaviour of the concrete patterns used.
-/

namespace SMConn

/-- `listPrefixEq n h` is true iff `n` is a prefix of `h`
(character-exact).  Used to model JavaScript substring search. -/
def listPrefixEq : List Char → List Char → Bool
  | [], _ => true
  | _ :: _, [] => false
  | a :: as, b :: bs => a == b && listPrefixEq as bs

/-- `listContains n h` is true iff `n` occurs as a contiguous substring of
`h`; this is the semantics of JavaScript `String.prototype.includes`. -/
def listContains (needle : List Char) : List Char → Bool
  | [] => listPrefixEq needle []
  | h :: t => listPrefixEq needle (h :: t) || listContains needle t

/-- JavaScript `s.includes(sub)`. -/
def jsIncludes (s sub : String) : Bool :=
  listContains sub.data s.data

/-- Whitespace as matched by JavaScript `\s` and trimmed by `trim`
(restricted to the ASCII whitespace actually occurring in the modelled
strings). -/
def isWsChar (c : Char) : Bool :=
  c == ' ' || c == '\t' || c == '\n' || c == '\r' ||
    c.toNat == 11 || c.toNat == 12

/-- JavaScript line terminators, the characters `.` does not match. -/
def isLineTerm (c : Char) : Bool :=
  c == '\n' || c == '\r'

/-- JavaScript `s.trim()` on character lists. -/
def jsTrimL (l : List Char) : List Char :=
  ((l.dropWhile isWsChar).reverse.dropWhile isWsChar).reverse

/-- JavaScript `s.trim()`. -/
def jsTrim (s : String) : String :=
  ⟨jsTrimL s.data⟩

/-- JavaScript `s.split(sep)` for a single-character separator: splits at
every occurrence, keeping empty pieces. -/
def splitOnCharL (sep : Char) : List Char → List (List Char)
  | [] => [[]]
  | c :: rest =>
    if c == sep then [] :: splitOnCharL sep rest
    else
      match splitOnCharL sep rest with
      | [] => [[c]]
      | t :: ts => (c :: t) :: ts

/-- JavaScript `s.split(sep)` for a single-character separator. -/
def jsSplitChar (s : String) (sep : Char) : List String :=
  (splitOnCharL sep s.data).map (fun l => ⟨l⟩)

/-- One step of JavaScript `s.replace(/pat/g, rep)` for a plain-text
pattern: non-overlapping leftmost replacement, driven by fuel. -/
def replaceAllGo (pat rep : List Char) : Nat → List Char → List Char
  | _, [] => []
  | 0, hay => hay
  | fuel + 1, h :: t =>
    if !pat.isEmpty && listPrefixEq pat (h :: t) then
      rep ++ replaceAllGo pat rep fuel ((h :: t).drop pat.length)
    else
      h :: replaceAllGo pat rep fuel t

/-- JavaScript `s.replace(/pat/g, rep)` for a plain-text pattern. -/
def jsReplaceAll (s pat rep : String) : String :=
  ⟨replaceAllGo pat.data rep.data s.data.length s.data⟩

/-! ## ExecUtils (src/src/utils/ExecUtils.ts)

Each probe executes an external command; the command's behaviour is an
input: `Except.error e` models a rejected promise (non-zero exit / thrown
error), `Except.ok out` models a resolved promise with stdout `out`. -/

/-- `ExecUtils.isProcessRunning(pid)` once the `tasklist` invocation has
produced result `r`: on error the `catch` returns `false`; on success the
source tests `stdout.includes(pid)` (substring containment of the decimal
pid) and the absence of `"INFO: No tasks"`. -/
def isProcessRunningRes (pid : Int) (r : Except String String) : Bool :=
  match r with
  | Except.error _ => false
  | Except.ok out =>
    jsIncludes out (toString pid) && !(jsIncludes out "INFO: No tasks")

/-- `ExecUtils.isPortAccessible(port)` once the `Test-NetConnection`
invocation has produced result `r`: on error `false`; on success the
source tests `stdout.includes("True") || stdout.trim() === "True"`. -/
def isPortAccessibleRes (_port : Int) (r : Except String String) : Bool :=
  match r with
  | Except.error _ => false
  | Except.ok out => jsIncludes out "True" || (jsTrim out == "True")

/-- The pid-matching predicate the spec demands: the decimal pid appears
as a whole whitespace-delimited token of the process listing. -/
def pidWholeTokenMatch (pid : Int) (out : String) : Bool :=
  ((splitOnCharL ' ' out.data).map (fun l => (⟨l⟩ : String))).contains
    (toString pid)

/-! ## ServerManager.checkServerStatus (src/unnamed/part_001 and the
textually identical copy in src/src/extension.ts lines 974-1047)

The external state is collected in `ServerEnv`:
`fileExists` is `fs.existsSync(serverInfoPath)`; `readParse` is the
combined `readFileSync` + `JSON.parse` step, yielding the record's `pid`
and `port` fields (absent fields are `none`) or the thrown error's
message; `procAlive`/`portOpen` are the boolean outcomes of
`ExecUtils.isProcessRunning` / `ExecUtils.isPortAccessible` (which absorb
their own probe failures, see `isProcessRunningRes`).  JavaScript
truthiness of `if (pid)` / `if (port)` makes a present `0` behave like an
absent field. -/

structure ServerStatus where
  running : Bool
  pid : Option Int := none
  port : Option Int := none
  accessible : Option Bool := none
  error : Option String := none
  deriving Repr, DecidableEq

structure ServerEnv where
  fileExists : Bool
  readParse : Except String (Option Int × Option Int)
  procAlive : Int → Bool
  portOpen : Int → Bool

/-- Truthiness of a JavaScript numeric field: absent (`undefined`) and
`0` are falsy. -/
def optTruthy : Option Int → Bool
  | none => false
  | some v => v != 0

/-- Outcome of the process sub-check inside `checkServerStatus`:
`false` both when the probe fails and when it is skipped because the
record or the pid is missing. -/
def processCheckOutcome (env : ServerEnv) : Bool :=
  if env.fileExists then
    match env.readParse with
    | Except.error _ => false
    | Except.ok (pid, _) =>
      match pid with
      | some p => if p != 0 then env.procAlive p else false
      | none => false
  else false

/-- Outcome of the port sub-check inside `checkServerStatus`. -/
def portCheckOutcome (env : ServerEnv) : Bool :=
  if env.fileExists then
    match env.readParse with
    | Except.error _ => false
    | Except.ok (_, port) =>
      match port with
      | some q => if q != 0 then env.portOpen q else false
      | none => false
  else false

/-- `ServerManager.checkServerStatus`, translated branch by branch. -/
def checkServerStatus (env : ServerEnv) : ServerStatus :=
  if env.fileExists then
    match env.readParse with
    | Except.error msg => { running := false, error := some msg }
    | Except.ok (pid, port) =>
      let processRunning :=
        match pid with
        | some p => if p != 0 then env.procAlive p else false
        | none => false
      let serverAccessible :=
        match port with
        | some q => if q != 0 then env.portOpen q else false
        | none => false
      { running := processRunning && serverAccessible
        pid := pid
        port := port
        accessible := some serverAccessible
        error :=
          if !processRunning then some "Process not running"
          else if !serverAccessible then some "Server not accessible on port"
          else none }
  else { running := false, error := some "Server info file not found" }

/-! ## PrerequisitesChecker (src/src/services/PrerequisitesChecker.ts and
the equivalent `checkPrerequisites` in src/src/extension.ts lines
894-972)

`PrereqEnv` collects the external collaborators: the two probe-command
results, the plugin's fixed install path existence, which Remote-SSH
extension variants the editor reports installed, whether the AWS Toolkit
extension is installed, and the SSH config file state. -/

inductive RemoteVariant where
  | cursor
  | vscode
  | absent
  deriving Repr, DecidableEq

structure RemoteSSHExtension where
  installed : Bool
  variant : RemoteVariant
  extensionId : Option String
  deriving Repr, DecidableEq

structure PrereqEnv where
  awsCliRes : Except String String
  pluginFileExists : Bool
  pluginCmdRes : Except String String
  cursorExt : Bool
  vscodeExt : Bool
  awsToolkitExt : Bool
  sshConfigExists : Bool
  sshConfigContent : String

structure PrereqResult where
  allPassed : Bool
  awsCli : Bool
  sessionManagerPlugin : Bool
  remoteSSH : Bool
  sshConfig : Bool
  awsToolkit : Bool
  errors : List String
  deriving Repr, DecidableEq

/-- `PrerequisitesChecker.checkAWSCLI`: `execute("aws --version")`
succeeding means installed; any rejection is caught and yields `false`. -/
def checkAWSCLI (env : PrereqEnv) : Bool :=
  match env.awsCliRes with
  | Except.ok _ => true
  | Except.error _ => false

/-- `PrerequisitesChecker.checkSessionManagerPlugin`: fixed install path
first, then the probe command with rejections caught to `false`. -/
def checkSessionManagerPlugin (env : PrereqEnv) : Bool :=
  if env.pluginFileExists then true
  else
    match env.pluginCmdRes with
    | Except.ok _ => true
    | Except.error _ => false

/-- `PrerequisitesChecker.checkRemoteSSHExtension`: the Cursor variant
wins over the VS Code variant; neither installed yields the `absent`
variant. -/
def checkRemoteSSHExtension (env : PrereqEnv) : RemoteSSHExtension :=
  if env.cursorExt then
    { installed := true, variant := RemoteVariant.cursor
      extensionId := some "anysphere.remote-ssh" }
  else if env.vscodeExt then
    { installed := true, variant := RemoteVariant.vscode
      extensionId := some "ms-vscode-remote.remote-ssh" }
  else
    { installed := false, variant := RemoteVariant.absent
      extensionId := none }

/-- `PrerequisitesChecker.checkSSHConfig`: file absent is `false`; else a
literal substring match for the host block header. -/
def checkSSHConfig (env : PrereqEnv) : Bool :=
  if env.sshConfigExists then jsIncludes env.sshConfigContent "Host sagemaker"
  else false

/-- `PrerequisitesChecker.checkAll`, translated branch by branch: the
error list receives a message per failed probe check, and `allPassed` is
computed exactly as in the source
(`errors.length === 0 && remoteSSHInstalled && sshConfig`). -/
def checkAll (env : PrereqEnv) : PrereqResult :=
  let awsCli := checkAWSCLI env
  let smp := checkSessionManagerPlugin env
  let remote := checkRemoteSSHExtension env
  let sshConfig := checkSSHConfig env
  let errors :=
    (if !awsCli then ["AWS CLI not found"] else []) ++
      (if !smp then ["Session Manager Plugin not found"] else [])
  { allPassed := errors.isEmpty && remote.installed && sshConfig
    awsCli := awsCli
    sessionManagerPlugin := smp
    remoteSSH := remote.installed
    sshConfig := sshConfig
    awsToolkit := env.awsToolkitExt
    errors := errors }

/-! ## HostnameGenerator (src/unnamed/part_002)

`generateHostname` indexes `arn.split(":")` at 5 and calls `.split("/")`
on the result; when fewer than six segments exist the indexed value is
`undefined` and the call throws an uncaught `TypeError`, modelled by
`Except.error`.  Template interpolation of a missing array element
stringifies `undefined`. -/

inductive JsFault where
  | typeErrorUndefined
  deriving Repr, DecidableEq

/-- Template-literal rendering of a possibly-`undefined` value. -/
def jsUndefStr (o : Option String) : String := o.getD "undefined"

/-- `HostnameGenerator.generateHostname`, translated line by line. -/
def generateHostname (arn : String) : Except JsFault String :=
  let parts := jsSplitChar arn ':'
  match parts.get? 5 with
  | none => Except.error JsFault.typeErrorUndefined
  | some resource =>
    let resourceParts := jsSplitChar resource '/'
    let region := jsUndefStr (parts.get? 3)
    let account := jsUndefStr (parts.get? 4)
    let domain := jsUndefStr (resourceParts.get? 1)
    let spaceName := jsUndefStr (resourceParts.get? 2)
    Except.ok ("sm_lc_arn_._aws_._sagemaker_._" ++ region ++ "._" ++ account ++
      "_._space__" ++ domain ++ "__" ++ spaceName)

/-! ## App-to-space ARN normalization

The conversion logic the extension installs into the connection script
(`arnConversionCode` in `FixService.fixArnConversion`), as a function:
the PowerShell pattern
`^arn:aws:sagemaker:([^:]+):(\d+):app/([^/]+)/([^/]+)/.*$` rewrites an
app ARN to the corresponding space ARN and leaves any non-matching input
unchanged.  Literal fragments are matched case-insensitively (PowerShell
`-match` semantics); `\d` is modelled by ASCII digits and `.` excludes
line terminators. -/

/-- Case-insensitive character comparison. -/
def lowerEqChar (a b : Char) : Bool := a.toLower == b.toLower

/-- Case-insensitive prefix test. -/
def ciPrefixEq : List Char → List Char → Bool
  | [], _ => true
  | _ :: _, [] => false
  | a :: as, b :: bs => lowerEqChar a b && ciPrefixEq as bs

/-- Splits off the shortest segment before the first occurrence of
`stop`; `none` when `stop` does not occur. -/
def splitAtChar (stop : Char) : List Char → Option (List Char × List Char)
  | [] => none
  | c :: rest =>
    if c == stop then some ([], rest)
    else
      match splitAtChar stop rest with
      | some (a, b) => some (c :: a, b)
      | none => none

/-- Matching the app-ARN pattern: yields the captured region, account,
domain and space name. -/
def matchAppArn (s : String) : Option (String × String × String × String) :=
  if ciPrefixEq "arn:aws:sagemaker:".data s.data then
    let r1 := s.data.drop 18
    match splitAtChar ':' r1 with
    | none => none
    | some (region, r2) =>
      if region.isEmpty then none
      else
        match splitAtChar ':' r2 with
        | none => none
        | some (account, r3) =>
          if account.isEmpty || !(account.all Char.isDigit) then none
          else if ciPrefixEq "app/".data r3 then
            let r4 := r3.drop 4
            match splitAtChar '/' r4 with
            | none => none
            | some (domain, r5) =>
              if domain.isEmpty then none
              else
                match splitAtChar '/' r5 with
                | none => none
                | some (space, r6) =>
                  if space.isEmpty then none
                  else if r6.any isLineTerm then none
                  else some (⟨region⟩, ⟨account⟩, ⟨domain⟩, ⟨space⟩)
          else none
  else none

/-- The rewrite the installed conversion code performs on the session's
resource ARN. -/
def normalizeAppArn (s : String) : String :=
  match matchAppArn s with
  | some (region, account, domain, space) =>
    "arn:aws:sagemaker:" ++ region ++ ":" ++ account ++ ":space/" ++
      domain ++ "/" ++ space
  | none => s

/-! ## Fix operations

`FixService.fixArnConversion` (src/unnamed/part_000, also
`fixArnConversion` in src/src/extension.ts) and `fixSshConfig`
(src/src/extension.ts lines 2071-2172), modelled at the text level for a
target file that exists with content `C`.  File-system side effects are
recorded as an ordered `FsEvent` trace; the backup file name interpolates
`Date.now()`, carried here as the string `now`.  The concrete JavaScript
regexes are implemented by the scanning functions below, including the
`$`-substitution semantics of `String.prototype.replace` where the
replacement text is data (`dollarSubst`). -/

inductive FsEvent where
  | copy (src dst content : String)
  | write (path content : String)
  deriving Repr, DecidableEq

/-- The marker whose presence means the ARN fix is already applied. -/
def arnMarker : String := "Convert app ARN to space ARN"

/-- The literal part of the insertion-point pattern `arnPattern` (the
regex escapes removed). -/
def arnInsertLiteral : String :=
  "$AWS_RESOURCE_ARN = $matches[2] -replace \x27_._\x27, \x27:\x27 -replace \x27__\x27, \x27/\x27"

/-- The PowerShell block `arnConversionCode` inserted by the fix (the
source builds it as lines joined with newlines). -/
def arnConversionCode : String :=
  String.intercalate "\n"
    [ ""
    , "# Convert app ARN to space ARN if needed (server only accepts space ARNs)"
    , "if ($AWS_RESOURCE_ARN -match \x27^arn:aws:sagemaker:([^:]+):(\\d+):app/([^/]+)/([^/]+)/.*$\x27) \x7b"
    , "    $region = $matches[1]"
    , "    $account = $matches[2]"
    , "    $domain = $matches[3]"
    , "    $space = $matches[4]"
    , "    $AWS_RESOURCE_ARN = \"arn:aws:sagemaker:\" + $region + \":\" + $account + \":space/\" + $domain + \"/\" + $space"
    , "    Write-Host \"Converted app ARN to space ARN: $AWS_RESOURCE_ARN\""
    , "\x7d"
    , "" ]

/-- Splits a whitespace run `w` as `w₁ ++ w₂` where `w₁` ends at the last
newline of `w`; `none` when `w` has no newline.  This is the effect of
backtracking `\s*\n` against a maximal whitespace run. -/
def splitAtLastNl (w : List Char) : Option (List Char × List Char) :=
  let r := w.reverse
  let noNl := r.takeWhile (fun c => !(c == '\n'))
  let rest := r.dropWhile (fun c => !(c == '\n'))
  match rest with
  | [] => none
  | _ :: _ => some (rest.reverse, noNl.reverse)

/-- Leftmost match of the insertion-point pattern
`(\$AWS_RESOURCE_ARN = ... '\/'\s*\n)`: an occurrence of the literal
followed by a whitespace run containing a newline; the captured group
extends through the last newline of that run. -/
def findArnGo (lit : List Char) :
    List Char → List Char → Option (List Char × List Char × List Char)
  | _, [] => none
  | acc, c :: rest =>
    if listPrefixEq lit (c :: rest) then
      let tail := (c :: rest).drop lit.length
      let w := tail.takeWhile isWsChar
      match splitAtLastNl w with
      | some (w₁, _) => some (acc.reverse, lit ++ w₁, tail.drop w₁.length)
      | none => findArnGo lit (c :: acc) rest
    else findArnGo lit (c :: acc) rest

/-- `scriptContent.match(arnPattern)` decomposed as
(text before, captured group, text after). -/
def findArnInsertion (C : String) : Option (String × String × String) :=
  match findArnGo arnInsertLiteral.data [] C.data with
  | some (p, g, q) => some (⟨p⟩, ⟨g⟩, ⟨q⟩)
  | none => none

inductive ArnFixOutcome where
  | alreadyApplied
  | applied
  | noInsertPoint
  deriving Repr, DecidableEq

structure ArnFixRun where
  text : String
  outcome : ArnFixOutcome
  trace : List FsEvent
  deriving Repr, DecidableEq

/-- `FixService.fixArnConversion` on an existing script with content `C`:
marker check, then backup, then pattern search and insertion (the source
creates the backup before searching for the insertion point, so the
could-not-apply path has copied but not written). -/
def fixArnConversionRun (scriptPath now C : String) : ArnFixRun :=
  if jsIncludes C arnMarker then ⟨C, ArnFixOutcome.alreadyApplied, []⟩
  else
    match findArnInsertion C with
    | some (pre, grp, post) =>
      let newText := pre ++ (grp ++ (arnConversionCode ++ post))
      ⟨newText, ArnFixOutcome.applied,
        [FsEvent.copy scriptPath (scriptPath ++ ".backup." ++ now) C,
         FsEvent.write scriptPath newText]⟩
    | none =>
      ⟨C, ArnFixOutcome.noInsertPoint,
        [FsEvent.copy scriptPath (scriptPath ++ ".backup." ++ now) C]⟩

/-- Leftmost case-insensitive occurrence of `needle`, splitting the text
as (before, from-occurrence-on). -/
def findCiGo (needle : List Char) :
    List Char → List Char → Option (List Char × List Char)
  | acc, [] => if ciPrefixEq needle [] then some (acc.reverse, []) else none
  | acc, c :: rest =>
    if ciPrefixEq needle (c :: rest) then some (acc.reverse, c :: rest)
    else findCiGo needle (c :: acc) rest

/-- Lazy extension `[\s\S]*?(?=Host |$)` of the host-section match: the
shortest extension after which case-insensitive `Host ` follows or the
text ends. -/
def sectionEndSplit : List Char → (List Char × List Char)
  | [] => ([], [])
  | c :: rest =>
    if ciPrefixEq "Host ".data (c :: rest) then ([], c :: rest)
    else
      let (a, b) := sectionEndSplit rest
      (c :: a, b)

/-- `configContent.match(/Host sagemaker[\s\S]*?(?=Host |$)/i)`
decomposed as (text before, matched section, text after). -/
def sshSectionSplit (C : String) : Option (String × String × String) :=
  match findCiGo "host sagemaker".data [] C.data with
  | none => none
  | some (pre, rest) =>
    let hdr := rest.take 14
    let tail := rest.drop 14
    let (mid, post) := sectionEndSplit tail
    some (⟨pre⟩, ⟨hdr ++ mid⟩, ⟨post⟩)

/-- Largest index in `[1, a]` of `w` holding a non-line-terminator
character (the backtracking step of greedy `\s+` when the whitespace run
reaches the end of the text). -/
def largestIdxNonTerm (w : List Char) : Nat → Option Nat
  | 0 => none
  | Nat.succ a =>
    match w.get? (Nat.succ a) with
    | some c =>
      if isLineTerm c then largestIdxNonTerm w a else some (Nat.succ a)
    | none => largestIdxNonTerm w a

/-- Matching `\s+(.+)` at the start of `R` (greedy with backtracking):
yields (whitespace consumed by `\s+`, text captured by `.+`, rest). -/
def proxyMatchAt (R : List Char) :
    Option (List Char × List Char × List Char) :=
  let w := R.takeWhile isWsChar
  let a0 := w.length
  if a0 == 0 then none
  else if a0 < R.length then
    let g2 := (R.drop a0).takeWhile (fun c => !isLineTerm c)
    some (R.take a0, g2, R.drop (a0 + g2.length))
  else
    match largestIdxNonTerm R (a0 - 1) with
    | none => none
    | some a =>
      let g2 := (R.drop a).takeWhile (fun c => !isLineTerm c)
      some (R.take a, g2, R.drop (a + g2.length))

/-- Leftmost match of `/(ProxyCommand\s+)(.+)/` decomposed as
(before, group 1, group 2, after). -/
def proxyFindGo (lit : List Char) :
    List Char → List Char →
    Option (List Char × List Char × List Char × List Char)
  | _, [] => none
  | acc, c :: rest =>
    if listPrefixEq lit (c :: rest) then
      match proxyMatchAt ((c :: rest).drop lit.length) with
      | some (w, g2, post) => some (acc.reverse, lit ++ w, g2, post)
      | none => proxyFindGo lit (c :: acc) rest
    else proxyFindGo lit (c :: acc) rest

/-- `hostSection.match(/(ProxyCommand\s+)(.+)/)` on a string. -/
def proxyCmdFind (s : String) :
    Option (String × String × String × String) :=
  match proxyFindGo "ProxyCommand".data [] s.data with
  | some (p, g1, g2, post) => some (⟨p⟩, ⟨g1⟩, ⟨g2⟩, ⟨post⟩)
  | none => none

/-- ECMAScript `$`-substitution applied to a replacement string when the
pattern has no capture groups: `$$` yields `$`, `$&` the matched text,
backquote and quote variants the text before/after the match; every
other `$` is literal. -/
def dollarSubst (matched pre post : List Char) : List Char → List Char
  | [] => []
  | '$' :: [] => ['$']
  | '$' :: d :: rest =>
    if d == '$' then '$' :: dollarSubst matched pre post rest
    else if d == '&' then matched ++ dollarSubst matched pre post rest
    else if d.toNat == 96 then pre ++ dollarSubst matched pre post rest
    else if d.toNat == 39 then post ++ dollarSubst matched pre post rest
    else '$' :: dollarSubst matched pre post (d :: rest)
  | c :: rest => c :: dollarSubst matched pre post rest

/-- Literal fragments of the fix-2 replacement
`$1powershell.exe ... '$2' %h"` (group references resolved by splicing,
the remaining text containing no special `$`-sequences). -/
def fix2LitA : String :=
  "powershell.exe -NoProfile -Command \"$env:SAGEMAKER_LOCAL_SERVER_FILE_PATH=\x27"

def fix2LitB : String := "\x27; & \x27"

def fix2LitC : String := "\x27 %h\""

inductive SshFixOutcome where
  | noHostEntry
  | noSection
  | fixedApplied
  | alreadyOk
  deriving Repr, DecidableEq

structure SshFixRun where
  text : String
  outcome : SshFixOutcome
  trace : List FsEvent
  deriving Repr, DecidableEq

/-- `fixSshConfig` on an existing config with content `C`: host-entry
gate, section extraction, the `%n`-to-`%h` fix and the record-path
binding fix (both predicates evaluated against the original section),
then backup and whole-file section replacement when any fix was
flagged.  `cfgPath` is the SSH config path and `siPath` the server-record
path interpolated into the binding. -/
def fixSshConfigRun (cfgPath siPath now C : String) : SshFixRun :=
  if !(jsIncludes C "Host sagemaker") then ⟨C, SshFixOutcome.noHostEntry, []⟩
  else
    match sshSectionSplit C with
    | none => ⟨C, SshFixOutcome.noSection, []⟩
    | some (pre, sec, post) =>
      let needs1 := jsIncludes sec "%n" && !(jsIncludes sec "%h")
      let s1 := if needs1 then jsReplaceAll sec "%n" "%h" else sec
      let needs2 := !(jsIncludes sec "SAGEMAKER_LOCAL_SERVER_FILE_PATH")
      let s2 :=
        if needs2 then
          match proxyCmdFind s1 with
          | some (p1, g1, g2, p2) =>
            p1 ++ (g1 ++ (fix2LitA ++ (siPath ++ (fix2LitB ++ (g2 ++ (fix2LitC ++ p2))))))
          | none => s1
        else s1
      if needs1 || needs2 then
        let newContent :=
          pre ++ ((⟨dollarSubst sec.data pre.data post.data s2.data⟩ : String) ++ post)
        ⟨newContent, SshFixOutcome.fixedApplied,
          [FsEvent.copy cfgPath (cfgPath ++ ".backup." ++ now) C,
           FsEvent.write cfgPath newContent]⟩
      else ⟨C, SshFixOutcome.alreadyOk, []⟩

/-! ## Connection orchestrators

`ConnectionManager.connectToSageMaker` (src/unnamed/part_000) and
`QuickStartService.quickStart` (src/src/services/QuickStartService.ts).
The two server-status calls are independent inputs `check1`/`check2`;
editor collaborators (registered command list, whether the chosen connect
command rejects, the SSH config file for the picker path) are further
inputs.  Delegation to the external connect capability is the
`executeCommand(connectCommand, sshHost)` call, represented by a
`delegated` outcome carrying the chosen verb; instruction-only fallbacks
are distinct outcomes.  The quick-start steps 2 and 3 (ARN-conversion
re-fix and known-hosts purge) catch every error and cannot change the
control flow, so they do not appear as abort points. -/

inductive ConnectOutcome where
  | errorCaught (msg : String)
  | prereqFailed (errors : List String)
  | serverNotRunning
  | serverNotAccessible
  | serverStoppedBetweenChecks
  | scriptNotFound
  | remoteSSHMissing
  | noConnectCommand
  | delegated (cmd : String) (host : String)
  | pickerConfigMissing
  | pickerHostMissing
  | pickerInstructions
  | manualFallback
  deriving Repr, DecidableEq

structure ConnectEnv where
  checks : PrereqResult
  check1 : ServerStatus
  check2 : ServerStatus
  scriptExists : Bool
  sshHost : String
  remoteType : RemoteVariant
  commands : List String
  connectThrows : Bool
  configExists : Bool
  configContent : String

/-- The ordered verb preference of `initiateConnection` for each
Remote-SSH variant; the first registered one wins. -/
def connectCommandChoice (remoteType : RemoteVariant)
    (commands : List String) : Option String :=
  match remoteType with
  | RemoteVariant.cursor =>
    ["remote-ssh.connectToHost", "remote-ssh.connect",
     "opensshremotes.connectToHost", "opensshremotes.connect",
     "opensshremotes.addNewSshHost"].find? (fun c => commands.contains c)
  | _ =>
    ["remote-ssh.connect", "remote.SSH.connect",
     "remote-ssh.connectToHost"].find? (fun c => commands.contains c)

/-- `ConnectionManager.initiateConnection`: pick the verb, delegate for
the four direct connect commands (falling back to manual instructions
when the command rejects under Cursor), or run the picker flow for
`opensshremotes.addNewSshHost`. -/
def initiateConnection (env : ConnectEnv) : ConnectOutcome :=
  match connectCommandChoice env.remoteType env.commands with
  | none => ConnectOutcome.noConnectCommand
  | some cmd =>
    if cmd == "opensshremotes.addNewSshHost" then
      if !env.configExists then ConnectOutcome.pickerConfigMissing
      else if !(jsIncludes env.configContent ("Host " ++ env.sshHost)) then
        ConnectOutcome.pickerHostMissing
      else ConnectOutcome.pickerInstructions
    else
      if env.connectThrows then
        if env.remoteType == RemoteVariant.cursor then
          ConnectOutcome.manualFallback
        else ConnectOutcome.errorCaught "command rejected"
      else ConnectOutcome.delegated cmd env.sshHost

/-- `ConnectionManager.connectToSageMaker`, translated gate by gate:
prerequisites, first server check, accessibility check (strict
`=== false` comparison), final verification immediately before
connecting, script existence, Remote-SSH presence, then delegation. -/
def connectToSageMaker (env : ConnectEnv) : ConnectOutcome :=
  if !env.checks.allPassed then ConnectOutcome.prereqFailed env.checks.errors
  else if !env.check1.running then ConnectOutcome.serverNotRunning
  else if env.check1.accessible == some false || !env.check1.running then
    ConnectOutcome.serverNotAccessible
  else if !env.check2.running || !(env.check2.accessible == some true) then
    ConnectOutcome.serverStoppedBetweenChecks
  else if !env.scriptExists then ConnectOutcome.scriptNotFound
  else if !env.checks.remoteSSH then ConnectOutcome.remoteSSHMissing
  else initiateConnection env

inductive QuickOutcome where
  | errorCaught (msg : String)
  | prereqFailed (errors : List String)
  | serverNotRunning
  | serverStoppedBetweenChecks
  | connected (cmd : String) (host : String)
  | connectedFallback (cmd : String) (host : String)
  | manualInstructions
  deriving Repr, DecidableEq

structure QuickStartEnv where
  checks : PrereqResult
  check1 : ServerStatus
  check2 : ServerStatus
  sshHost : String
  addHostThrows : Bool
  fallbackThrows : Bool

/-- `QuickStartService.quickStart`, translated gate by gate: prerequisite
gate; fault-absorbing ARN-conversion and known-hosts steps (no abort
points); first server check requiring `running` and `accessible`; final
verification; then the `opensshremotes.addNewSshHost` delegation with the
`remote-ssh.connectToHost` fallback and manual instructions as last
resort. -/
def quickStart (env : QuickStartEnv) : QuickOutcome :=
  if !env.checks.allPassed then QuickOutcome.prereqFailed env.checks.errors
  else if !env.check1.running || !(env.check1.accessible == some true) then
    QuickOutcome.serverNotRunning
  else if !env.check2.running || !(env.check2.accessible == some true) then
    QuickOutcome.serverStoppedBetweenChecks
  else if !env.addHostThrows then
    QuickOutcome.connected "opensshremotes.addNewSshHost" env.sshHost
  else if !env.fallbackThrows then
    QuickOutcome.connectedFallback "remote-ssh.connectToHost" env.sshHost
  else QuickOutcome.manualInstructions

/-- Every write of a fix run is preceded (strictly earlier in the event
trace) by a copy of the yet-unmodified target file `orig` to a backup
path embedding the timestamp `now`. -/
def backupBeforeWrites (orig now : String) (tr : List FsEvent) : Prop :=
  ∀ i p txt, tr.get? i = some (FsEvent.write p txt) →
    ∃ j dst, j < i ∧ tr.get? j = some (FsEvent.copy p dst orig) ∧
      dst = p ++ ".backup." ++ now

theorem listPrefixEq_refl (n : List Char) : listPrefixEq n n = true := by
  induction n with
  | nil => rfl
  | cons a as ih => simp [listPrefixEq, ih]

theorem listPrefixEq_append {n s : List Char} (t : List Char)
    (h : listPrefixEq n s = true) : listPrefixEq n (s ++ t) = true := by
  induction n generalizing s with
  | nil => rfl
  | cons a as ih =>
    cases s with
    | nil => simp [listPrefixEq] at h
    | cons b bs =>
      simp only [listPrefixEq, Bool.and_eq_true] at h ⊢
      exact ⟨h.1, ih h.2⟩

theorem listContains_nil (t : List Char) : listContains [] t = true := by
  induction t with
  | nil => rfl
  | cons c cs ih => simp [listContains, listPrefixEq]

theorem listContains_self (n : List Char) : listContains n n = true := by
  cases n with
  | nil => rfl
  | cons a as => simp [listContains, listPrefixEq_refl]

theorem listContains_append_left (n : List Char) (pre : List Char)
    {h : List Char} (hc : listContains n h = true) :
    listContains n (pre ++ h) = true := by
  induction pre with
  | nil => simpa using hc
  | cons c cs ih =>
    cases hp : cs ++ h with
    | nil => simp [hp] at ih; simp [listContains, hp, ih]
    | cons d ds => simp [listContains, ← hp, ih]

theorem listContains_append_right (n : List Char) {h : List Char}
    (t : List Char) (hc : listContains n h = true) :
    listContains n (h ++ t) = true := by
  induction h with
  | nil =>
    simp only [listContains] at hc
    cases n with
    | nil => exact listContains_nil _
    | cons a as => simp [listPrefixEq] at hc
  | cons c cs ih =>
    simp only [listContains, Bool.or_eq_true] at hc
    rcases hc with hc | hc
    · simp only [List.cons_append, listContains, Bool.or_eq_true]
      exact Or.inl (listPrefixEq_append t hc)
    · simp only [List.cons_append, listContains, Bool.or_eq_true]
      exact Or.inr (ih hc)

theorem listContains_of_sandwich (n pre mid post : List Char)
    (hc : listContains n mid = true) :
    listContains n (pre ++ (mid ++ post)) = true :=
  listContains_append_left n pre (listContains_append_right n post hc)

/-- Anything contained in the trimmed list is contained in the original:
`jsTrimL l` is an infix of `l`. -/
theorem listContains_of_trim (n l : List Char)
    (hc : listContains n (jsTrimL l) = true) : listContains n l = true := by
  have h1 : l = l.takeWhile isWsChar ++ l.dropWhile isWsChar :=
    (List.takeWhile_append_dropWhile (p := isWsChar) (l := l)).symm
  set m := l.dropWhile isWsChar with hm
  have h2 : m.reverse = m.reverse.takeWhile isWsChar ++ m.reverse.dropWhile isWsChar :=
    (List.takeWhile_append_dropWhile (p := isWsChar) (l := m.reverse)).symm
  have h3 : m = (m.reverse.dropWhile isWsChar).reverse ++
      (m.reverse.takeWhile isWsChar).reverse := by
    have h4 := congrArg List.reverse h2
    rw [List.reverse_reverse, List.reverse_append] at h4
    exact h4
  have hmid : listContains n m = true := by
    rw [h3]
    exact listContains_append_right n _ (by simpa [jsTrimL, hm] using hc)
  rw [h1]
  exact listContains_append_left n _ hmid

theorem jsIncludes_append_left (pre s sub : String)
    (h : jsIncludes s sub = true) : jsIncludes (pre ++ s) sub = true := by
  have : (pre ++ s).data = pre.data ++ s.data := rfl
  simp only [jsIncludes, this]
  exact listContains_append_left _ _ h

theorem jsIncludes_append_right (s t sub : String)
    (h : jsIncludes s sub = true) : jsIncludes (s ++ t) sub = true := by
  have : (s ++ t).data = s.data ++ t.data := rfl
  simp only [jsIncludes, this]
  exact listContains_append_right _ _ h

/-- C7: the ARN `arn:aws:sagemaker:us-east-1:123456789012:app/d-abc/my-space/JupyterLab/default`
normalizes to the space ARN
`arn:aws:sagemaker:us-east-1:123456789012:space/d-abc/my-space`, and
encoding that space identifier (region `us-east-1`, account
`123456789012`, domain `d-abc`, space name `my-space`) yields the
hostname token
`sm_lc_arn_._aws_._sagemaker_._us-east-1._123456789012_._space__d-abc__my-space`. -/
theorem scenarioC_codec :
    normalizeAppArn
        "arn:aws:sagemaker:us-east-1:123456789012:app/d-abc/my-space/JupyterLab/default" =
      "arn:aws:sagemaker:us-east-1:123456789012:space/d-abc/my-space" ∧
    generateHostname "arn:aws:sagemaker:us-east-1:123456789012:space/d-abc/my-space" =
      Except.ok
        "sm_lc_arn_._aws_._sagemaker_._us-east-1._123456789012_._space__d-abc__my-space" :=
  ⟨rfl, rfl⟩

/-- C8: encoding an ARN with fewer than six colon-separated segments does
not produce the structured `ConversionFailed` outcome the claim requires:
`generateHostname` indexes the missing resource segment and faults with
an uncaught `TypeError` (`undefined.split`).  Evaluated at the failing
input `arn:aws:sagemaker` (three segments). -/
theorem malformedArnFaults :
    (jsSplitChar "arn:aws:sagemaker" ':').length = 3 ∧
    generateHostname "arn:aws:sagemaker" =
      Except.error JsFault.typeErrorUndefined :=
  ⟨rfl, rfl⟩

/-- C2: the process-liveness check as implemented reports pid 123 as
running from a listing that contains only pid 1234 — the match is
substring containment, not a whole process-id entry: the listing's
whitespace-separated tokens do not include `123`, yet the check returns
`true`.  This is the collision the spec's exact-match requirement
forbids. -/
theorem pidSubstringCollision :
    isProcessRunningRes 123
        (Except.ok "python.exe                  1234 Console") = true ∧
    pidWholeTokenMatch 123 "python.exe                  1234 Console" = false := by
  exact ⟨by decide, by decide⟩

/-- C3: `checkServerStatus` never reports `running = true` unless both
sub-checks succeed: whenever the process sub-check or the port sub-check
fails or is skipped, the returned status has `running = false`. -/
theorem conservativeLiveness (env : ServerEnv)
    (h : processCheckOutcome env = false ∨ portCheckOutcome env = false) :
    (checkServerStatus env).running = false := by
  obtain ⟨fe, rp, pa, po⟩ := env
  cases fe with
  | false => rfl
  | true =>
    cases rp with
    | error msg => rfl
    | ok pp =>
      obtain ⟨pid, port⟩ := pp
      rcases h with h | h <;>
        simp only [processCheckOutcome, portCheckOutcome, if_true] at h <;>
        simp only [checkServerStatus, if_true] <;>
        cases pid <;> cases port <;> simp_all

/-- Witness for C3 at a concrete environment whose record has no pid. -/
theorem conservativeLiveness_witness :
    processCheckOutcome
        ⟨true, Except.ok (none, some 80), fun _ => true, fun _ => true⟩ = false ∧
    (checkServerStatus
        ⟨true, Except.ok (none, some 80), fun _ => true, fun _ => true⟩).running = false :=
  ⟨rfl, conservativeLiveness _ (Or.inl rfl)⟩

/-- C10: when the record file exists and parses but its `pid` field is
absent or falsy, `checkServerStatus` skips the process-table query (the
result does not depend on the process probe at all), reports
`running = false` with error `Process not running`, and the `accessible`
field still reflects the port probe for the present port. -/
theorem missingPidSkipsProcessQuery (env : ServerEnv) (q : Int)
    (hf : env.fileExists = true)
    (hp : env.readParse = Except.ok (none, some q) ∨
      env.readParse = Except.ok (some 0, some q))
    (hq : q ≠ 0) :
    (checkServerStatus env).running = false ∧
    (checkServerStatus env).error = some "Process not running" ∧
    (checkServerStatus env).accessible = some (env.portOpen q) ∧
    (∀ f g : Int → Bool,
      checkServerStatus { env with procAlive := f } =
        checkServerStatus { env with procAlive := g }) := by
  obtain ⟨fe, rp, pa, po⟩ := env
  subst hf
  rcases hp with hp | hp <;> subst hp <;>
    refine ⟨?_, ?_, ?_, fun f g => ?_⟩ <;>
    simp [checkServerStatus, hq]

/-- Witness for C10 at a concrete environment with a pid-less record and
port 80. -/
theorem missingPidSkipsProcessQuery_witness :
    (checkServerStatus
        ⟨true, Except.ok (none, some 80), fun _ => true, fun _ => false⟩).running = false ∧
    (checkServerStatus
        ⟨true, Except.ok (none, some 80), fun _ => true, fun _ => false⟩).error =
      some "Process not running" ∧
    (checkServerStatus
        ⟨true, Except.ok (none, some 80), fun _ => true, fun _ => false⟩).accessible =
      some false :=
  have h := missingPidSkipsProcessQuery
    ⟨true, Except.ok (none, some 80), fun _ => true, fun _ => false⟩ 80
    rfl (Or.inl rfl) (by decide)
  ⟨h.1, h.2.1, h.2.2.1⟩

/-- C6 counterexample: with the tool, plugin, Cursor Remote-SSH extension
and SSH host block all present but the AWS Toolkit extension absent,
`checkAll` still reports `allPassed = true`, so `allPassed` is not
derived from `toolkitInstalled` as the claim states. -/
theorem allPassedIgnoresToolkit :
    (checkAll ⟨Except.ok "aws-cli/2", true, Except.ok "", true, false,
        false, true, "Host sagemaker"⟩).allPassed = true ∧
    (checkAll ⟨Except.ok "aws-cli/2", true, Except.ok "", true, false,
        false, true, "Host sagemaker"⟩).awsToolkit = false := by
  exact ⟨by decide, by decide⟩

/-- C6 (amended): `allPassed` is derived from the individual facts, but
the toolkit fact does not participate: for every environment,
`allPassed = true` iff the tool check and the bridge-plugin check are
true, the remote-extension variant is not `absent`, and the SSH config
contains the host block. -/
theorem allPassedDerivation (env : PrereqEnv) :
    (checkAll env).allPassed = true ↔
      ((checkAll env).awsCli = true ∧
        (checkAll env).sessionManagerPlugin = true ∧
        (checkRemoteSSHExtension env).variant ≠ RemoteVariant.absent ∧
        (checkAll env).sshConfig = true) := by
  obtain ⟨a, pf, pc, ce, ve, tk, se, sc⟩ := env
  cases ha : checkAWSCLI ⟨a, pf, pc, ce, ve, tk, se, sc⟩ <;>
    cases hs : checkSessionManagerPlugin ⟨a, pf, pc, ce, ve, tk, se, sc⟩ <;>
    cases hc : checkSSHConfig ⟨a, pf, pc, ce, ve, tk, se, sc⟩ <;>
    cases ce <;> cases ve <;>
    simp_all [checkAll, checkRemoteSSHExtension]

/-- C9: probe failures are absorbed locally: a rejected process probe, a
rejected port probe, an unparsable port-probe output, a rejected
tool-version probe and a rejected plugin-version probe each yield `false`
— the enclosing checks return structured results (the failed tool check
surfaces as `awsCli = false` plus an error entry) and never propagate the
underlying fault. -/
theorem probeFailuresAbsorbed (pid port : Int) (e out : String)
    (env : PrereqEnv) :
    isProcessRunningRes pid (Except.error e) = false ∧
    isPortAccessibleRes port (Except.error e) = false ∧
    (jsIncludes out "True" = false →
      isPortAccessibleRes port (Except.ok out) = false) ∧
    (env.awsCliRes = Except.error e →
      (checkAll env).awsCli = false ∧
        "AWS CLI not found" ∈ (checkAll env).errors) ∧
    (env.pluginFileExists = false → env.pluginCmdRes = Except.error e →
      (checkAll env).sessionManagerPlugin = false) := by
  refine ⟨rfl, rfl, ?_, ?_, ?_⟩
  · intro h
    simp only [isPortAccessibleRes, h, Bool.false_or]
    by_cases heq : jsTrim out = "True"
    · exfalso
      have hdata : jsTrimL out.data = "True".data := congrArg String.data heq
      have h1 : listContains "True".data (jsTrimL out.data) = true := by
        rw [hdata]; exact listContains_self _
      have h2 : jsIncludes out "True" = true :=
        listContains_of_trim _ _ h1
      rw [h2] at h
      cases h
    · exact beq_eq_false_iff_ne.mpr heq
  · intro h
    constructor
    · simp [checkAll, checkAWSCLI, h]
    · simp [checkAll, checkAWSCLI, h]
  · intro h1 h2
    simp [checkAll, checkSessionManagerPlugin, h1, h2]

/-- Witness for C9 at concrete failing probes. -/
theorem probeFailuresAbsorbed_witness :
    isPortAccessibleRes 2 (Except.ok "zzz") = false ∧
    (checkAll ⟨Except.error "boom", false, Except.error "boom", true,
        false, true, true, "Host sagemaker"⟩).awsCli = false ∧
    (checkAll ⟨Except.error "boom", false, Except.error "boom", true,
        false, true, true, "Host sagemaker"⟩).sessionManagerPlugin = false :=
  have h := probeFailuresAbsorbed 1 2 "boom" "zzz"
    ⟨Except.error "boom", false, Except.error "boom", true, false, true,
      true, "Host sagemaker"⟩
  ⟨h.2.2.1 (by decide), (h.2.2.2.1 rfl).1, h.2.2.2.2 rfl rfl⟩

theorem backupBeforeWrites_nil (orig now : String) :
    backupBeforeWrites orig now [] := by
  intro i p txt h
  simp at h

theorem backupBeforeWrites_copyOnly (orig now src dst : String) :
    backupBeforeWrites orig now [FsEvent.copy src dst orig] := by
  intro i p txt h
  match i with
  | 0 => simp [List.get?] at h
  | n + 1 => simp [List.get?] at h

theorem backupBeforeWrites_pair (orig now path txt' : String) :
    backupBeforeWrites orig now
      [FsEvent.copy path (path ++ ".backup." ++ now) orig,
       FsEvent.write path txt'] := by
  intro i p txt h
  match i with
  | 0 => simp [List.get?] at h
  | 1 =>
    simp only [List.get?, Option.some.injEq] at h
    obtain ⟨hp, -⟩ := FsEvent.write.inj h
    rw [← hp]
    exact ⟨0, path ++ ".backup." ++ now, by omega, rfl, rfl⟩
  | n + 2 => simp [List.get?] at h

/-- C5: every fix that rewrites its target file first copies the
unmodified content to a backup path embedding the current timestamp (the
copy strictly precedes the write in the event trace), and a fix that is
skipped as already satisfied performs no backup at all.  Holds for both
the ARN-conversion fix and the SSH-config fix. -/
theorem fixesBackupBeforeWrite (sp cp si now C : String) :
    (backupBeforeWrites C now (fixArnConversionRun sp now C).trace ∧
      ((fixArnConversionRun sp now C).outcome = ArnFixOutcome.alreadyApplied →
        (fixArnConversionRun sp now C).trace = [])) ∧
    (backupBeforeWrites C now (fixSshConfigRun cp si now C).trace ∧
      ((fixSshConfigRun cp si now C).outcome = SshFixOutcome.alreadyOk →
        (fixSshConfigRun cp si now C).trace = [])) := by
  constructor
  · by_cases hm : jsIncludes C arnMarker = true
    · constructor
      · simp only [fixArnConversionRun, hm, if_true]
        exact backupBeforeWrites_nil C now
      · intro _
        simp [fixArnConversionRun, hm]
    · cases hf : findArnInsertion C with
      | some trip =>
        obtain ⟨pre, grp, post⟩ := trip
        constructor
        · simp only [fixArnConversionRun, hm, if_false, hf, Bool.false_eq_true]
          exact backupBeforeWrites_pair C now sp _
        · intro hout
          simp [fixArnConversionRun, hm, hf] at hout
      | none =>
        constructor
        · simp only [fixArnConversionRun, hm, if_false, hf, Bool.false_eq_true]
          exact backupBeforeWrites_copyOnly C now sp _
        · intro hout
          simp [fixArnConversionRun, hm, hf] at hout
  · by_cases hg : jsIncludes C "Host sagemaker" = true
    · cases hsec : sshSectionSplit C with
      | none =>
        constructor
        · simp only [fixSshConfigRun, hg, Bool.not_true, if_false, hsec,
            Bool.false_eq_true]
          exact backupBeforeWrites_nil C now
        · intro _
          simp [fixSshConfigRun, hg, hsec]
      | some trip =>
        obtain ⟨pre, sec, post⟩ := trip
        by_cases hneeds :
            ((jsIncludes sec "%n" && !(jsIncludes sec "%h")) ||
              !(jsIncludes sec "SAGEMAKER_LOCAL_SERVER_FILE_PATH")) = true
        · constructor
          · simp only [fixSshConfigRun, hg, Bool.not_true, if_false, hsec,
              hneeds, if_true, Bool.false_eq_true]
            exact backupBeforeWrites_pair C now cp _
          · intro hout
            simp [fixSshConfigRun, hg, hsec, hneeds] at hout
        · constructor
          · simp only [fixSshConfigRun, hg, Bool.not_true, if_false, hsec,
              hneeds, Bool.false_eq_true]
            exact backupBeforeWrites_nil C now
          · intro _
            simp [fixSshConfigRun, hg, hsec, hneeds]
    · constructor
      · simp only [fixSshConfigRun, hg, Bool.false_eq_true]
        simp only [Bool.not_eq_true] at hg
        simp only [hg, Bool.not_false, if_true]
        exact backupBeforeWrites_nil C now
      · intro _
        simp only [Bool.not_eq_true] at hg
        simp [fixSshConfigRun, hg]

set_option maxRecDepth 8192 in
/-- Witness for C5: the ARN fix applied to a script containing the
insertion pattern writes at trace position 1, and the theorem produces
the preceding timestamped copy of the original content at position 0. -/
theorem fixesBackupBeforeWrite_witness :
    ∃ j dst, j < 1 ∧
      (fixArnConversionRun "SP" "7" (arnInsertLiteral ++ "\nend")).trace.get? j =
        some (FsEvent.copy "SP" dst (arnInsertLiteral ++ "\nend")) ∧
      dst = "SP" ++ ".backup." ++ "7" :=
  (fixesBackupBeforeWrite "SP" "CFG" "SI" "7" (arnInsertLiteral ++ "\nend")).1.1
    1 "SP" (fixArnConversionRun "SP" "7" (arnInsertLiteral ++ "\nend")).text
    (by decide)

/-- C4 counterexample: for the SSH-config fix and the config text
`Host sagemaker\n  User ec2-user\n` (no ProxyCommand line, no record-path
binding), the second application does not report already-applied and
performs a write: re-running the fix on its own output rewrites the
unchanged text again instead of detecting satisfaction, refuting
`applyFix(applyFix(C,K).text, K) == (applyFix(C,K).text, alreadyApplied)`. -/
theorem fixIdempotenceFails :
    (fixSshConfigRun "CFG" "SI" "1" "Host sagemaker\n  User ec2-user\n").text =
      "Host sagemaker\n  User ec2-user\n" ∧
    (fixSshConfigRun "CFG" "SI" "2"
        (fixSshConfigRun "CFG" "SI" "1" "Host sagemaker\n  User ec2-user\n").text).outcome ≠
      SshFixOutcome.alreadyOk ∧
    (fixSshConfigRun "CFG" "SI" "2"
        (fixSshConfigRun "CFG" "SI" "1" "Host sagemaker\n  User ec2-user\n").text).trace ≠
      [] := by
  exact ⟨by decide, by decide, by decide⟩

/-- C4 (amended): idempotence holds on the fixes' applicable domains.
For the ARN-conversion fix, whenever the first application finds the fix
already applied or applies it, the second application returns the same
text and reports already-applied with no file event; for the SSH-config
fix, whenever a run reports no-fixes-needed, its text is unchanged and
re-running it is the same reporting no-op.  (Outside these domains
re-application is not an already-applied no-op: an ARN script without the
insertion pattern repeats could-not-apply, and an SSH block lacking the
record-path binding with no ProxyCommand line is rewritten on every
application, as the counterexample shows.) -/
theorem fixIdempotenceOnApplicable (sp cp si n1 n2 C : String) :
    ((fixArnConversionRun sp n1 C).outcome = ArnFixOutcome.alreadyApplied ∨
        (fixArnConversionRun sp n1 C).outcome = ArnFixOutcome.applied →
      fixArnConversionRun sp n2 (fixArnConversionRun sp n1 C).text =
        ⟨(fixArnConversionRun sp n1 C).text, ArnFixOutcome.alreadyApplied, []⟩) ∧
    ((fixSshConfigRun cp si n1 C).outcome = SshFixOutcome.alreadyOk →
      (fixSshConfigRun cp si n1 C).text = C ∧
      fixSshConfigRun cp si n2 C = ⟨C, SshFixOutcome.alreadyOk, []⟩) := by
  constructor
  · intro h
    by_cases hm : jsIncludes C arnMarker = true
    · simp [fixArnConversionRun, hm]
    · cases hf : findArnInsertion C with
      | none =>
        exfalso
        rcases h with h | h <;> simp [fixArnConversionRun, hm, hf] at h
      | some trip =>
        obtain ⟨pre, grp, post⟩ := trip
        have htext : (fixArnConversionRun sp n1 C).text =
            pre ++ (grp ++ (arnConversionCode ++ post)) := by
          simp [fixArnConversionRun, hm, hf]
        have hmarker :
            jsIncludes (pre ++ (grp ++ (arnConversionCode ++ post))) arnMarker = true := by
          apply jsIncludes_append_left
          apply jsIncludes_append_left
          apply jsIncludes_append_right
          decide
        rw [htext]
        simp [fixArnConversionRun, hmarker]
  · intro h
    by_cases hg : jsIncludes C "Host sagemaker" = true
    · cases hsec : sshSectionSplit C with
      | none =>
        exfalso
        simp [fixSshConfigRun, hg, hsec] at h
      | some trip =>
        obtain ⟨pre, sec, post⟩ := trip
        by_cases hneeds :
            ((jsIncludes sec "%n" && !(jsIncludes sec "%h")) ||
              !(jsIncludes sec "SAGEMAKER_LOCAL_SERVER_FILE_PATH")) = true
        · exfalso
          simp [fixSshConfigRun, hg, hsec, hneeds] at h
        · constructor
          · simp [fixSshConfigRun, hg, hsec, hneeds]
          · simp [fixSshConfigRun, hg, hsec, hneeds]
    · exfalso
      simp only [Bool.not_eq_true] at hg
      simp [fixSshConfigRun, hg] at h

set_option maxRecDepth 8192 in
/-- Witness for C4 (amended) at a script consisting of the insertion
pattern: the first application applies the fix, the second reports
already-applied with the text unchanged and no file event. -/
theorem fixIdempotenceOnApplicable_witness :
    fixArnConversionRun "SP" "8"
        (fixArnConversionRun "SP" "7" (arnInsertLiteral ++ "\nend")).text =
      ⟨(fixArnConversionRun "SP" "7" (arnInsertLiteral ++ "\nend")).text,
        ArnFixOutcome.alreadyApplied, []⟩ :=
  (fixIdempotenceOnApplicable "SP" "CFG" "SI" "7" "8"
    (arnInsertLiteral ++ "\nend")).1 (Or.inr (by decide))

/-- C1: in both the connect and the quick-start workflow, when the first
server health check reports running but the final check performed
immediately before delegating reports not-running, the outcome is
`serverStoppedBetweenChecks` (under the gates that let the flow reach the
final check: prerequisites passed and the first check's accessibility not
negative), and no connect command is ever invoked — for every such pair
of check results, no outcome delegates to the external connect
capability. -/
theorem serverStoppedBetweenChecksGate (cenv : ConnectEnv)
    (qenv : QuickStartEnv)
    (hc1 : cenv.check1.running = true) (hc2 : cenv.check2.running = false)
    (hq1 : qenv.check1.running = true) (hq2 : qenv.check2.running = false) :
    ((cenv.checks.allPassed = true →
        cenv.check1.accessible ≠ some false →
        connectToSageMaker cenv = ConnectOutcome.serverStoppedBetweenChecks) ∧
      (∀ cmd host,
        connectToSageMaker cenv ≠ ConnectOutcome.delegated cmd host)) ∧
    ((qenv.checks.allPassed = true → qenv.check1.accessible = some true →
        quickStart qenv = QuickOutcome.serverStoppedBetweenChecks) ∧
      (∀ cmd host,
        quickStart qenv ≠ QuickOutcome.connected cmd host ∧
          quickStart qenv ≠ QuickOutcome.connectedFallback cmd host)) := by
  refine ⟨⟨?_, ?_⟩, ?_, ?_⟩
  · intro hall hacc
    have h3 : (cenv.check1.accessible == some false) = false :=
      beq_eq_false_iff_ne.mpr hacc
    simp [connectToSageMaker, hall, hc1, h3, hc2]
  · intro cmd host
    unfold connectToSageMaker
    split
    next => simp
    next =>
      split
      next => simp
      next =>
        split
        next => simp
        next =>
          rw [if_pos (by simp [hc2])]
          simp
  · intro hall hacc
    simp [quickStart, hall, hq1, hacc, hq2]
  · intro cmd host
    unfold quickStart
    split
    next => simp
    next =>
      split
      next => simp
      next =>
        rw [if_pos (by simp [hq2])]
        simp

/-- Witness for C1 at concrete environments: all prerequisites pass, the
first check is running and accessible, the second is not running. -/
theorem serverStoppedBetweenChecksGate_witness :
    connectToSageMaker
        ⟨⟨true, true, true, true, true, true, []⟩,
          ⟨true, some 11, some 8080, some true, none⟩,
          ⟨false, some 11, some 8080, some false, some "Process not running"⟩,
          true, "sagemaker", RemoteVariant.cursor,
          ["remote-ssh.connectToHost"], false, true, "Host sagemaker"⟩ =
      ConnectOutcome.serverStoppedBetweenChecks ∧
    quickStart
        ⟨⟨true, true, true, true, true, true, []⟩,
          ⟨true, some 11, some 8080, some true, none⟩,
          ⟨false, some 11, some 8080, some false, some "Process not running"⟩,
          "sagemaker", false, false⟩ =
      QuickOutcome.serverStoppedBetweenChecks :=
  have h := serverStoppedBetweenChecksGate
    ⟨⟨true, true, true, true, true, true, []⟩,
      ⟨true, some 11, some 8080, some true, none⟩,
      ⟨false, some 11, some 8080, some false, some "Process not running"⟩,
      true, "sagemaker", RemoteVariant.cursor,
      ["remote-ssh.connectToHost"], false, true, "Host sagemaker"⟩
    ⟨⟨true, true, true, true, true, true, []⟩,
      ⟨true, some 11, some 8080, some true, none⟩,
      ⟨false, some 11, some 8080, some false, some "Process not running"⟩,
      "sagemaker", false, false⟩
    rfl rfl rfl rfl
  ⟨h.1.1 rfl (by decide), h.2.1 rfl rfl⟩

end SMConn
